import Mathlib

/-!
Verification development for the `dji_tello_lib` drone client (Rust).

The Rust source is shallowly embedded:
* strings are Lean `String`s (Rust `str::contains` / `str::starts_with`
  become substring / list-prefix tests on the character lists);
* `f32` arithmetic is idealized as real (`ℝ`) arithmetic, with Rust's
  float `%` (remainder, truncated quotient) modelled by `fmod32`,
  `f32::atan2` by `atan2` below, and `f32::round` (round half away from
  zero; only ever applied to positive values here, where it agrees with
  Mathlib's `round`);
* `as i32` truncation of a nonnegative value becomes `Int.floor`
  (`rtrunc` handles the general sign);
* the fallible drone operations become functions returning an error
  option together with the resulting state and the list of commands
  actually sent on the wire, parametrized by the raw reply the UDP
  socket would deliver.
-/

namespace Tello

/-! ## Strings: `str::contains` and `str::starts_with` -/

/-- `pat` occurs as a contiguous sublist of `s` (Rust `str::contains`). -/
def listContains (pat : List Char) : List Char → Bool
  | [] => pat.isEmpty
  | c :: rest => pat.isPrefixOf (c :: rest) || listContains pat rest

/-- Rust `response.contains(pat)`. -/
def containsSub (s pat : String) : Bool :=
  listContains pat.toList s.toList

/-- Rust `command.starts_with(pat)`. -/
def startsWithStr (s pat : String) : Bool :=
  pat.toList.isPrefixOf s.toList

/-- The telemetry test in `Tello::send_command` (src/tello.rs:162):
`response.contains("pitch:") && response.contains("roll:") && response.contains("yaw:")`. -/
def isTelemetryReply (response : String) : Bool :=
  containsSub response "pitch:" && containsSub response "roll:" &&
    containsSub response "yaw:"

/-- The reply-classification logic of `Tello::send_command`
(src/tello.rs:147-193), success path: the value the function returns for a
given command and received datagram text. -/
def classifyReply (command response : String) : String :=
  if isTelemetryReply response then
    if command = "ls" then "No files found"
    else if startsWithStr command "download" ||
        startsWithStr command "direct_transfer" then "File not found"
    else "ok"
  else response

/-! ## Telemetry listener and `get_state` (src/tello.rs:98-144)

The shared slot `state_receiver : Option<Arc<Mutex<String>>>` is `None`
until `connect` runs `setup_state_receiver`, which installs
`Mutex::new(String::new())`; each received datagram overwrites the slot.
`get_state` clones the slot when it exists. The mutex is modelled away:
the spec's concurrency contract is that each publish is an atomic
replacement, so the observable histories are exactly the interleavings
below. -/

inductive TEvent where
  | connectEv : TEvent
  | datagram : String → TEvent

/-- Effect of one event on the `state_receiver` slot
(`none` = no receiver installed yet). -/
def stepState : Option String → TEvent → Option String
  | _, TEvent.connectEv => some ""
  | none, TEvent.datagram _ => none
  | some _, TEvent.datagram s => some s

/-- `Tello::get_state` (src/tello.rs:137-144): clone of the slot when
the receiver exists, `None` otherwise. -/
def get_state (slot : Option String) : Option String := slot

/-! ## `Tello::takeoff` (src/tello.rs:198-234)

Modelled under the assumption that every command the function sends is
acknowledged `"ok"` (the situation the claims describe). The result is
the list of commands sent after `takeoff` itself succeeded, paired with
whether a height warning was printed. Heights (`f32`) are idealized as
rationals; `(h * 100.0) as i32` is truncation `truncQ`. -/

def truncQ (x : ℚ) : ℤ := if 0 ≤ x then ⌊x⌋ else ⌈x⌉

/-- Commands issued by `takeoff(height)` when every reply is `"ok"`,
with the warning flag. -/
def takeoffRun (height : Option ℚ) : List String × Bool :=
  match height with
  | none => (["takeoff"], false)
  | some h =>
    if 8 < h then (["takeoff"], true)
    else if h ≤ 0 then (["takeoff"], true)
    else
      let height_cm : ℤ := truncQ (h * 100)
      if 100 < height_cm then
        (["takeoff", "up " ++ toString (height_cm - 100)], false)
      else if height_cm < 100 then
        (["takeoff", "down " ++ toString (100 - height_cm)], false)
      else (["takeoff"], false)

/-! ## Real-number model of the `f32` navigation arithmetic -/

/-- Truncation toward zero (`as i32` on an `f32`). -/
noncomputable def rtrunc (x : ℝ) : ℤ := if 0 ≤ x then ⌊x⌋ else ⌈x⌉

/-- Rust's float `%`: remainder with truncated quotient.  Every use in the
source has a nonnegative dividend and divisor `360.0`, where this agrees
with the mathematical remainder. -/
noncomputable def fmod32 (x y : ℝ) : ℝ := x - y * rtrunc (x / y)

/-- `f32::to_radians`. -/
noncomputable def toRadians (d : ℝ) : ℝ := d * (Real.pi / 180)

/-- `f32::to_degrees`. -/
noncomputable def toDegrees (r : ℝ) : ℝ := r * (180 / Real.pi)

/-- `f32::atan2` (`y.atan2(x)`), range `(-π, π]`; the signed-zero
distinctions of `f32` collapse, with `atan2 0 0 = 0`. -/
noncomputable def atan2 (y x : ℝ) : ℝ :=
  if 0 < x then Real.arctan (y / x)
  else if x < 0 ∧ 0 ≤ y then Real.arctan (y / x) + Real.pi
  else if x < 0 ∧ y < 0 then Real.arctan (y / x) - Real.pi
  else if 0 < y then Real.pi / 2
  else if y < 0 then -(Real.pi / 2)
  else 0

/-- Drone client state: `current_position` and `current_direction`
(src/tello.rs:29-45). -/
structure DroneState where
  x : ℝ
  y : ℝ
  z : ℝ
  dir : ℝ

/-- `Tello::new` (src/tello.rs:49-63): origin, facing forward. -/
noncomputable def initialState : DroneState := ⟨0, 0, 0, 0⟩

/-- `Tello::update_position_after_movement` (src/tello.rs:564-596). -/
noncomputable def update_position_after_movement (s : DroneState)
    (direction : String) (distance : ℤ) : DroneState :=
  let distance_m : ℝ := (distance : ℝ) / 100
  if direction = "forward" then
    let a := toRadians s.dir
    { s with x := s.x + distance_m * Real.sin a,
             y := s.y + distance_m * Real.cos a }
  else if direction = "back" then
    let a := toRadians s.dir
    { s with x := s.x - distance_m * Real.sin a,
             y := s.y - distance_m * Real.cos a }
  else if direction = "left" then
    let a := toRadians (s.dir - 90)
    { s with x := s.x + distance_m * Real.sin a,
             y := s.y + distance_m * Real.cos a }
  else if direction = "right" then
    let a := toRadians (s.dir + 90)
    { s with x := s.x + distance_m * Real.sin a,
             y := s.y + distance_m * Real.cos a }
  else if direction = "up" then { s with z := s.z + distance_m }
  else if direction = "down" then { s with z := s.z - distance_m }
  else s

/-! ## Fallible operations

Each operation returns `(error?, resulting state, commands sent)`,
parametrized by the raw datagram text `raw` the socket would deliver for
the one command the operation sends; `classifyReply` turns `raw` into
the value `send_command` actually returns. -/

inductive TError where
  | invalidInput : TError
  | commandFailed : String → TError
deriving DecidableEq

/-- `Tello::rotate_cw` (src/tello.rs:439-460). -/
noncomputable def rotate_cw (s : DroneState) (raw : String) (degrees : ℤ) :
    Option TError × DroneState × List String :=
  if degrees ≤ 0 ∨ 360 < degrees then (some TError.invalidInput, s, [])
  else if classifyReply ("cw " ++ toString degrees) raw = "ok" then
    (none, { s with dir := fmod32 (s.dir + (degrees : ℝ)) 360 },
      ["cw " ++ toString degrees])
  else
    (some (TError.commandFailed (classifyReply ("cw " ++ toString degrees) raw)),
      s, ["cw " ++ toString degrees])

/-- `Tello::rotate_ccw` (src/tello.rs:463-484). -/
noncomputable def rotate_ccw (s : DroneState) (raw : String) (degrees : ℤ) :
    Option TError × DroneState × List String :=
  if degrees ≤ 0 ∨ 360 < degrees then (some TError.invalidInput, s, [])
  else if classifyReply ("ccw " ++ toString degrees) raw = "ok" then
    (none, { s with dir := fmod32 (s.dir - (degrees : ℝ) + 360) 360 },
      ["ccw " ++ toString degrees])
  else
    (some (TError.commandFailed (classifyReply ("ccw " ++ toString degrees) raw)),
      s, ["ccw " ++ toString degrees])

/-- The movement wrappers `Tello::forward/back/left/right/up/down`
(src/tello_movement.rs:7-148): the six Rust methods are textually
identical up to the direction word, so they are embedded once with the
direction as a parameter. -/
noncomputable def moveDir (s : DroneState) (raw : String)
    (direction : String) (distance : ℤ) :
    Option TError × DroneState × List String :=
  if distance ≤ 0 ∨ 500 < distance then (some TError.invalidInput, s, [])
  else if classifyReply (direction ++ " " ++ toString distance) raw = "ok" then
    (none, update_position_after_movement s direction distance,
      [direction ++ " " ++ toString distance])
  else
    (some (TError.commandFailed
        (classifyReply (direction ++ " " ++ toString distance) raw)),
      s, [direction ++ " " ++ toString distance])

/-- `Tello::set_position` (src/tello.rs:554-556). -/
noncomputable def set_position (s : DroneState) (nx ny nz : ℝ) : DroneState :=
  { s with x := nx, y := ny, z := nz }

/-! ## Camera pointing (src/tello.rs:490-550) -/

/-- The normalized target heading computed by `point_camera_to_center`:
`(dy.atan2(dx).to_degrees() + 90.0 + 360.0) % 360.0`. -/
noncomputable def targetHeadingToCenter (px py cx cy : ℝ) : ℝ :=
  fmod32 (toDegrees (atan2 (cy - py) (cx - px)) + 90 + 360) 360

/-- The normalized target heading computed by `point_camera_from_center`:
`(dy.atan2(dx).to_degrees() - 90.0 + 360.0) % 360.0`. -/
noncomputable def targetHeadingFromCenter (px py cx cy : ℝ) : ℝ :=
  fmod32 (toDegrees (atan2 (cy - py) (cx - px)) - 90 + 360) 360

/-- The shortest-rotation adjustment shared by both camera functions. -/
noncomputable def normalizeRotation (rotation : ℝ) : ℝ :=
  if 180 < rotation then rotation - 360
  else if rotation < -180 then rotation + 360
  else rotation

/-- The signed rotation `point_camera_to_center` computes before acting. -/
noncomputable def rotationToCenter (s : DroneState) (cx cy : ℝ) : ℝ :=
  normalizeRotation (targetHeadingToCenter s.x s.y cx cy - s.dir)

/-- The signed rotation `point_camera_from_center` computes before acting. -/
noncomputable def rotationFromCenter (s : DroneState) (cx cy : ℝ) : ℝ :=
  normalizeRotation (targetHeadingFromCenter s.x s.y cx cy - s.dir)

/-- `Tello::point_camera_to_center` (src/tello.rs:490-517). -/
noncomputable def point_camera_to_center (s : DroneState) (raw : String)
    (cx cy : ℝ) : Option TError × DroneState × List String :=
  if |rotationToCenter s cx cy| < 1 then (none, s, [])
  else if 0 < rotationToCenter s cx cy then
    rotate_cw s raw (round (rotationToCenter s cx cy))
  else rotate_ccw s raw (round (-rotationToCenter s cx cy))

/-- `Tello::point_camera_from_center` (src/tello.rs:523-550). -/
noncomputable def point_camera_from_center (s : DroneState) (raw : String)
    (cx cy : ℝ) : Option TError × DroneState × List String :=
  if |rotationFromCenter s cx cy| < 1 then (none, s, [])
  else if 0 < rotationFromCenter s cx cy then
    rotate_cw s raw (round (rotationFromCenter s cx cy))
  else rotate_ccw s raw (round (-rotationFromCenter s cx cy))

/-! ## The public interface as a transition system (for the heading
invariant): each operation taken on its success path (`raw = "ok"`). -/

inductive DOp where
  | opRotCw : ℤ → DOp
  | opRotCcw : ℤ → DOp
  | opPointTo : ℝ → ℝ → DOp
  | opPointFrom : ℝ → ℝ → DOp
  | opMove : String → ℤ → DOp
  | opSetPos : ℝ → ℝ → ℝ → DOp
  | opUpdatePos : String → ℤ → DOp

/-- One public-interface call, success path. -/
noncomputable def stepOp (s : DroneState) : DOp → DroneState
  | DOp.opRotCw d => (rotate_cw s "ok" d).2.1
  | DOp.opRotCcw d => (rotate_ccw s "ok" d).2.1
  | DOp.opPointTo cx cy => (point_camera_to_center s "ok" cx cy).2.1
  | DOp.opPointFrom cx cy => (point_camera_from_center s "ok" cx cy).2.1
  | DOp.opMove dir d => (moveDir s "ok" dir d).2.1
  | DOp.opSetPos nx ny nz => set_position s nx ny nz
  | DOp.opUpdatePos dir d => update_position_after_movement s dir d

/-! ## Helper lemmas on `fmod32` -/

theorem fmod32_eq_floor {x y : ℝ} (hx : 0 ≤ x) (hy : 0 < y) :
    fmod32 x y = x - y * ⌊x / y⌋ := by
  unfold fmod32 rtrunc
  rw [if_pos (div_nonneg hx hy.le)]

theorem fmod32_nonneg {x y : ℝ} (hx : 0 ≤ x) (hy : 0 < y) :
    0 ≤ fmod32 x y := by
  rw [fmod32_eq_floor hx hy]
  have h1 : ((⌊x / y⌋ : ℤ) : ℝ) ≤ x / y := Int.floor_le _
  have h2 : y * ((⌊x / y⌋ : ℤ) : ℝ) ≤ y * (x / y) :=
    mul_le_mul_of_nonneg_left h1 hy.le
  have h3 : y * (x / y) = x := by field_simp
  linarith

theorem fmod32_lt {x y : ℝ} (hx : 0 ≤ x) (hy : 0 < y) :
    fmod32 x y < y := by
  rw [fmod32_eq_floor hx hy]
  have h1 : x / y < ((⌊x / y⌋ : ℤ) : ℝ) + 1 := Int.lt_floor_add_one _
  have h2 : y * (x / y) < y * (((⌊x / y⌋ : ℤ) : ℝ) + 1) :=
    mul_lt_mul_of_pos_left h1 hy
  have h3 : y * (x / y) = x := by field_simp
  have h4 : y * (((⌊x / y⌋ : ℤ) : ℝ) + 1) = y * ((⌊x / y⌋ : ℤ) : ℝ) + y := by
    ring
  linarith

theorem fmod32_eq_self {x y : ℝ} (hx : 0 ≤ x) (hxy : x < y) :
    fmod32 x y = x := by
  have hy : 0 < y := lt_of_le_of_lt hx hxy
  rw [fmod32_eq_floor hx hy]
  have h0 : ⌊x / y⌋ = 0 := by
    rw [Int.floor_eq_zero_iff]
    exact ⟨div_nonneg hx hy.le, (div_lt_one hy).mpr hxy⟩
  rw [h0]
  simp

theorem fmod32_eq_sub {x y : ℝ} (hy : 0 < y) (h1 : y ≤ x) (h2 : x < 2 * y) :
    fmod32 x y = x - y := by
  have hx : 0 ≤ x := hy.le.trans h1
  rw [fmod32_eq_floor hx hy]
  have h0 : ⌊x / y⌋ = 1 := by
    rw [Int.floor_eq_iff]
    constructor
    · exact_mod_cast (one_le_div hy).mpr h1
    · have : x / y < 2 := (div_lt_iff₀ hy).mpr (by linarith)
      push_cast
      linarith
  rw [h0]
  simp

/-! ## Helper lemmas on replies and rotations -/

theorem classifyReply_ok (cmd : String) : classifyReply cmd "ok" = "ok" := by
  have h : isTelemetryReply "ok" = false := by decide
  simp [classifyReply, h]

theorem rotate_cw_ok (s : DroneState) (d : ℤ) (h0 : 0 < d) (h1 : d ≤ 360) :
    (rotate_cw s "ok" d).2.1 = { s with dir := fmod32 (s.dir + (d : ℝ)) 360 } := by
  unfold rotate_cw
  rw [if_neg (by omega : ¬(d ≤ 0 ∨ 360 < d))]
  simp [classifyReply_ok]

theorem rotate_ccw_ok (s : DroneState) (d : ℤ) (h0 : 0 < d) (h1 : d ≤ 360) :
    (rotate_ccw s "ok" d).2.1 =
      { s with dir := fmod32 (s.dir - (d : ℝ) + 360) 360 } := by
  unfold rotate_ccw
  rw [if_neg (by omega : ¬(d ≤ 0 ∨ 360 < d))]
  simp [classifyReply_ok]

/-- Every outcome of `rotate_cw` either leaves the state unchanged or, with
a validated argument, updates the heading by `fmod32 (dir + d) 360`. -/
theorem rotate_cw_state_cases (s : DroneState) (raw : String) (d : ℤ) :
    (rotate_cw s raw d).2.1 = s ∨
    (0 < d ∧ d ≤ 360 ∧
      (rotate_cw s raw d).2.1 = { s with dir := fmod32 (s.dir + (d : ℝ)) 360 }) := by
  unfold rotate_cw
  split_ifs with h1 h2
  · left; rfl
  · right; exact ⟨by omega, by omega, rfl⟩
  · left; rfl

theorem rotate_ccw_state_cases (s : DroneState) (raw : String) (d : ℤ) :
    (rotate_ccw s raw d).2.1 = s ∨
    (0 < d ∧ d ≤ 360 ∧
      (rotate_ccw s raw d).2.1 =
        { s with dir := fmod32 (s.dir - (d : ℝ) + 360) 360 }) := by
  unfold rotate_ccw
  split_ifs with h1 h2
  · left; rfl
  · right; exact ⟨by omega, by omega, rfl⟩
  · left; rfl

theorem rotate_cw_dir_mem {s : DroneState} (raw : String) (d : ℤ)
    (h : s.dir ∈ Set.Ico (0 : ℝ) 360) :
    ((rotate_cw s raw d).2.1).dir ∈ Set.Ico (0 : ℝ) 360 := by
  rcases rotate_cw_state_cases s raw d with hc | ⟨hd0, hd1, hc⟩
  · rwa [hc]
  · rw [hc]
    have hd0' : (1 : ℝ) ≤ (d : ℝ) := by exact_mod_cast hd0
    obtain ⟨hl, hu⟩ := h
    exact ⟨fmod32_nonneg (by linarith) (by norm_num),
      fmod32_lt (by linarith) (by norm_num)⟩

theorem rotate_ccw_dir_mem {s : DroneState} (raw : String) (d : ℤ)
    (h : s.dir ∈ Set.Ico (0 : ℝ) 360) :
    ((rotate_ccw s raw d).2.1).dir ∈ Set.Ico (0 : ℝ) 360 := by
  rcases rotate_ccw_state_cases s raw d with hc | ⟨hd0, hd1, hc⟩
  · rwa [hc]
  · rw [hc]
    have hd1' : (d : ℝ) ≤ 360 := by exact_mod_cast hd1
    obtain ⟨hl, hu⟩ := h
    exact ⟨fmod32_nonneg (by linarith) (by norm_num),
      fmod32_lt (by linarith) (by norm_num)⟩

theorem update_position_dir_eq (s : DroneState) (direction : String)
    (d : ℤ) : (update_position_after_movement s direction d).dir = s.dir := by
  unfold update_position_after_movement
  split_ifs <;> rfl

/-! ## Helper lemmas: `atan2` range and normalized headings -/

theorem atan2_mem_Ioc (y x : ℝ) :
    atan2 y x ∈ Set.Ioc (-Real.pi) Real.pi := by
  have hpi := Real.pi_pos
  unfold atan2
  split_ifs with h1 h2 h3 h4 h5
  · have ha1 := Real.arctan_lt_pi_div_two (y / x)
    have ha2 := Real.neg_pi_div_two_lt_arctan (y / x)
    exact ⟨by linarith, by linarith⟩
  · have hyx : y / x ≤ 0 :=
      div_nonpos_iff.mpr (Or.inl ⟨h2.2, h2.1.le⟩)
    have ha1 : Real.arctan (y / x) ≤ 0 := by
      have hm := Real.arctan_strictMono.monotone hyx
      simpa [Real.arctan_zero] using hm
    have ha2 := Real.neg_pi_div_two_lt_arctan (y / x)
    exact ⟨by linarith, by linarith⟩
  · have hyx : 0 < y / x := div_pos_iff.mpr (Or.inr ⟨h3.2, h3.1⟩)
    have ha1 : 0 < Real.arctan (y / x) := by
      have hm := Real.arctan_strictMono hyx
      simpa [Real.arctan_zero] using hm
    have ha2 := Real.arctan_lt_pi_div_two (y / x)
    exact ⟨by linarith, by linarith⟩
  · exact ⟨by linarith, by linarith⟩
  · exact ⟨by linarith, by linarith⟩
  · exact ⟨by linarith, by linarith⟩

theorem toDegrees_atan2_mem (y x : ℝ) :
    toDegrees (atan2 y x) ∈ Set.Ioc (-180 : ℝ) 180 := by
  obtain ⟨hl, hu⟩ := atan2_mem_Ioc y x
  have hpi := Real.pi_pos
  unfold toDegrees
  constructor
  · have h1 : (-Real.pi) * (180 / Real.pi) < atan2 y x * (180 / Real.pi) :=
      mul_lt_mul_of_pos_right hl (by positivity)
    have h2 : (-Real.pi) * (180 / Real.pi) = -180 := by
      field_simp
      try ring
    linarith
  · have h1 : atan2 y x * (180 / Real.pi) ≤ Real.pi * (180 / Real.pi) :=
      mul_le_mul_of_nonneg_right hu (by positivity)
    have h2 : Real.pi * (180 / Real.pi) = 180 := by
      field_simp
      try ring
    linarith

theorem targetHeadingToCenter_mem (px py cx cy : ℝ) :
    targetHeadingToCenter px py cx cy ∈ Set.Ico (0 : ℝ) 360 := by
  obtain ⟨hl, hu⟩ := toDegrees_atan2_mem (cy - py) (cx - px)
  unfold targetHeadingToCenter
  exact ⟨fmod32_nonneg (by linarith) (by norm_num),
    fmod32_lt (by linarith) (by norm_num)⟩

theorem targetHeadingFromCenter_mem (px py cx cy : ℝ) :
    targetHeadingFromCenter px py cx cy ∈ Set.Ico (0 : ℝ) 360 := by
  obtain ⟨hl, hu⟩ := toDegrees_atan2_mem (cy - py) (cx - px)
  unfold targetHeadingFromCenter
  exact ⟨fmod32_nonneg (by linarith) (by norm_num),
    fmod32_lt (by linarith) (by norm_num)⟩

theorem normalizeRotation_mem {raw : ℝ} (h1 : -360 < raw) (h2 : raw < 360) :
    normalizeRotation raw ∈ Set.Icc (-180 : ℝ) 180 := by
  unfold normalizeRotation
  split_ifs with ha hb
  · exact ⟨by linarith, by linarith⟩
  · exact ⟨by linarith, by linarith⟩
  · exact ⟨by linarith, by linarith⟩

theorem rotationToCenter_mem (s : DroneState) (cx cy : ℝ)
    (hd : s.dir ∈ Set.Ico (0 : ℝ) 360) :
    rotationToCenter s cx cy ∈ Set.Icc (-180 : ℝ) 180 := by
  obtain ⟨h1, h2⟩ := targetHeadingToCenter_mem s.x s.y cx cy
  obtain ⟨h3, h4⟩ := hd
  exact normalizeRotation_mem (by linarith) (by linarith)

theorem rotationFromCenter_mem (s : DroneState) (cx cy : ℝ)
    (hd : s.dir ∈ Set.Ico (0 : ℝ) 360) :
    rotationFromCenter s cx cy ∈ Set.Icc (-180 : ℝ) 180 := by
  obtain ⟨h1, h2⟩ := targetHeadingFromCenter_mem s.x s.y cx cy
  obtain ⟨h3, h4⟩ := hd
  exact normalizeRotation_mem (by linarith) (by linarith)

theorem round_mem_Icc {x : ℝ} (h1 : 1 ≤ x) (h2 : x ≤ 180) :
    round x ∈ Set.Icc (1 : ℤ) 180 := by
  rw [round_eq]
  constructor
  · rw [Int.le_floor]
    push_cast
    linarith
  · rw [Int.floor_le_iff]
    push_cast
    linarith

/-- The last element of a list, or `d` when the list is empty (the value
left in an overwrite-only slot seeded with `d`). -/
def lastOr (d : String) : List String → String
  | [] => d
  | a :: rest => lastOr a rest

/-- Snapshot slot contents after `connect` followed by a sequence of
received datagrams. -/
theorem stepState_foldl_datagrams (v : String) (ds : List String) :
    (ds.map TEvent.datagram).foldl stepState (some v) =
      some (lastOr v ds) := by
  induction ds generalizing v with
  | nil => rfl
  | cons d rest ih =>
    simp only [List.map_cons, List.foldl_cons, stepState, lastOr]
    exact ih d

/-! ## Claims -/

/-- C1: for every command string `c` and reply `r` containing the three
telemetry markers `pitch:`, `roll:`, `yaw:`, `send_command` classifies `r`
as telemetry rather than the acknowledgement: for `c = "ls"` it returns
`"No files found"`, for `c` starting with `download` or `direct_transfer`
it returns `"File not found"` (explicit data-unavailable results instead
of the raw reply), and for every other command the implicit success
`"ok"`. -/
theorem c1_telemetry_reply_classification (c r : String)
    (h : isTelemetryReply r = true) :
    (c = "ls" → classifyReply c r = "No files found") ∧
    (c ≠ "ls" →
      (startsWithStr c "download" || startsWithStr c "direct_transfer") = true →
      classifyReply c r = "File not found") ∧
    (c ≠ "ls" →
      (startsWithStr c "download" || startsWithStr c "direct_transfer") = false →
      classifyReply c r = "ok") := by
  refine ⟨fun h1 => ?_, fun h1 h2 => ?_, fun h1 h2 => ?_⟩
  · simp [classifyReply, h, h1]
  · simp [classifyReply, h, h1, h2]
  · simp only [Bool.or_eq_false_iff] at h2
    simp [classifyReply, h, h1, h2.1, h2.2]

/-- Witness for C1 at concrete inputs: a telemetry-shaped reply is turned
into `"ok"` for a plain movement command. -/
theorem c1_telemetry_reply_classification_witness :
    classifyReply "forward 100" "pitch:0;roll:0;yaw:0;bat:87;" = "ok" :=
  (c1_telemetry_reply_classification "forward 100" "pitch:0;roll:0;yaw:0;bat:87;"
      (by decide)).2.2 (by decide) (by decide)

/-- C4, counterexample to the claim as stated: immediately after
`connect` (which installs the receiver slot containing the empty string)
and before any telemetry datagram, `get_state` returns `some ""` — a
snapshot — not `none`. -/
theorem c4_counterexample :
    get_state (stepState none TEvent.connectEv) = some "" ∧
    get_state (stepState none TEvent.connectEv) ≠ none := by
  constructor
  · rfl
  · intro hc
    simp [get_state, stepState] at hc

/-- C4 as amended: before `connect` the slot does not exist and
`get_state` returns `none`; after `connect` and before any datagram it
returns the empty snapshot `some ""`; once at least one datagram has been
received it returns the single most recent one (each new packet
overwrites the previous). -/
theorem c4_latest_snapshot (ds : List String) :
    get_state none = none ∧
    get_state ((ds.map TEvent.datagram).foldl stepState
        (stepState none TEvent.connectEv)) = some (lastOr "" ds) := by
  constructor
  · rfl
  · exact stepState_foldl_datagrams "" ds

/-- C5: with the base `takeoff` command acknowledged `"ok"`, a requested
height `h ≤ 0` or `h > 8` produces a warning, no corrective `up`/`down`
command, and success; a height in `(0, 8]` produces at most one
corrective command, and none at all when the requested height is the
default 1 m. -/
theorem c5_takeoff_height_clamp (h : ℚ) :
    ((h ≤ 0 ∨ 8 < h) → takeoffRun (some h) = (["takeoff"], true)) ∧
    (0 < h → h ≤ 8 →
      (takeoffRun (some h)).1.length ≤ 2 ∧
      (takeoffRun (some h)).1.head? = some "takeoff" ∧
      (takeoffRun (some h)).2 = false) ∧
    (h = 1 → takeoffRun (some h) = (["takeoff"], false)) := by
  refine ⟨fun h1 => ?_, fun h1 h2 => ?_, fun h1 => ?_⟩
  · rcases h1 with h1 | h1
    · have hn : ¬(8 < h) := by linarith
      simp [takeoffRun, hn, h1]
    · simp [takeoffRun, h1]
  · have hn8 : ¬(8 < h) := by linarith
    have hn0 : ¬(h ≤ 0) := by linarith
    simp only [takeoffRun, hn8, hn0, if_false]
    split_ifs <;> simp
  · subst h1
    have hn8 : ¬((8 : ℚ) < 1) := by norm_num
    have hn0 : ¬((1 : ℚ) ≤ 0) := by norm_num
    have ht : truncQ ((100 : ℚ)) = 100 := by
      unfold truncQ
      norm_num
    simp [takeoffRun, hn8, hn0, ht]

/-- Witness for C5 at the spec's scenario `takeoff(Some(10.0))`: only the
base command, a warning, success. -/
theorem c5_takeoff_height_clamp_witness :
    takeoffRun (some 10) = (["takeoff"], true) :=
  (c5_takeoff_height_clamp 10).1 (Or.inr (by norm_num))

/-- C6: from a heading in `[0, 360)`, a successful `rotate_cw(r)` followed
by a successful `rotate_ccw(r)` (integer `r ∈ (0, 360]`) restores the
heading exactly, and likewise in the opposite order. -/
theorem c6_rotation_round_trip (s : DroneState) (r : ℤ)
    (h0 : 0 ≤ s.dir) (h1 : s.dir < 360) (hr0 : 0 < r) (hr1 : r ≤ 360) :
    ((rotate_ccw (rotate_cw s "ok" r).2.1 "ok" r).2.1).dir = s.dir ∧
    ((rotate_cw (rotate_ccw s "ok" r).2.1 "ok" r).2.1).dir = s.dir := by
  have hr0' : (1 : ℝ) ≤ (r : ℝ) := by exact_mod_cast hr0
  have hr1' : (r : ℝ) ≤ 360 := by exact_mod_cast hr1
  constructor
  · rw [rotate_cw_ok s r hr0 hr1, rotate_ccw_ok _ r hr0 hr1]
    show fmod32 (fmod32 (s.dir + (r : ℝ)) 360 - (r : ℝ) + 360) 360 = s.dir
    rcases lt_or_le (s.dir + (r : ℝ)) 360 with hc | hc
    · rw [fmod32_eq_self (by linarith) hc]
      rw [show s.dir + (r : ℝ) - (r : ℝ) + 360 = s.dir + 360 from by ring]
      rw [fmod32_eq_sub (by norm_num) (by linarith) (by linarith)]
      ring
    · rw [fmod32_eq_sub (by norm_num) hc (by linarith)]
      rw [show s.dir + (r : ℝ) - 360 - (r : ℝ) + 360 = s.dir from by ring]
      exact fmod32_eq_self h0 h1
  · rw [rotate_ccw_ok s r hr0 hr1, rotate_cw_ok _ r hr0 hr1]
    show fmod32 (fmod32 (s.dir - (r : ℝ) + 360) 360 + (r : ℝ)) 360 = s.dir
    rcases lt_or_le (s.dir - (r : ℝ) + 360) 360 with hc | hc
    · rw [fmod32_eq_self (by linarith) hc]
      rw [show s.dir - (r : ℝ) + 360 + (r : ℝ) = s.dir + 360 from by ring]
      rw [fmod32_eq_sub (by norm_num) (by linarith) (by linarith)]
      ring
    · rw [fmod32_eq_sub (by norm_num) hc (by linarith)]
      rw [show s.dir - (r : ℝ) + 360 - 360 + (r : ℝ) = s.dir from by ring]
      exact fmod32_eq_self h0 h1

/-- Witness for C6 at heading `0`, rotation `90`. -/
theorem c6_rotation_round_trip_witness :
    ((rotate_ccw (rotate_cw initialState "ok" 90).2.1 "ok" 90).2.1).dir =
      initialState.dir ∧
    ((rotate_cw (rotate_ccw initialState "ok" 90).2.1 "ok" 90).2.1).dir =
      initialState.dir :=
  c6_rotation_round_trip initialState 90 (by norm_num [initialState])
    (by norm_num [initialState]) (by norm_num) (by norm_num)

/-- C2: for every distance `d ∈ (0, 500]` and horizontal direction,
`update_position_after_movement` displaces `(x, y)` by Euclidean length
`d/100` meters and leaves `z` unchanged; from the initial pose (origin,
heading 0), `forward 100` yields `(0, 1, 0)` (heading 0 is the `+Y`
axis). -/
theorem c2_horizontal_move_displacement (s : DroneState) (direction : String)
    (d : ℤ) (hd0 : 0 < d) (_hd1 : d ≤ 500)
    (hdir : direction = "forward" ∨ direction = "back" ∨
      direction = "left" ∨ direction = "right") :
    (Real.sqrt (((update_position_after_movement s direction d).x - s.x) ^ 2 +
        ((update_position_after_movement s direction d).y - s.y) ^ 2) =
          (d : ℝ) / 100 ∧
      (update_position_after_movement s direction d).z = s.z) ∧
    ((update_position_after_movement initialState "forward" 100).x = 0 ∧
      (update_position_after_movement initialState "forward" 100).y = 1 ∧
      (update_position_after_movement initialState "forward" 100).z = 0) := by
  have hdm : (0 : ℝ) ≤ (d : ℝ) / 100 := by
    have hd : (0 : ℝ) < (d : ℝ) := by exact_mod_cast hd0
    positivity
  refine ⟨⟨?_, ?_⟩, ?_, ?_, ?_⟩
  · rcases hdir with h | h | h | h <;> subst h <;>
      simp only [update_position_after_movement, String.reduceEq, reduceIte,
        if_true, if_false]
    · have key : (s.x + (d : ℝ) / 100 * Real.sin (toRadians s.dir) - s.x) ^ 2 +
          (s.y + (d : ℝ) / 100 * Real.cos (toRadians s.dir) - s.y) ^ 2 =
            ((d : ℝ) / 100) ^ 2 := by
        linear_combination (((d : ℝ) / 100) ^ 2) *
          Real.sin_sq_add_cos_sq (toRadians s.dir)
      rw [key, Real.sqrt_sq hdm]
    · have key : (s.x - (d : ℝ) / 100 * Real.sin (toRadians s.dir) - s.x) ^ 2 +
          (s.y - (d : ℝ) / 100 * Real.cos (toRadians s.dir) - s.y) ^ 2 =
            ((d : ℝ) / 100) ^ 2 := by
        linear_combination (((d : ℝ) / 100) ^ 2) *
          Real.sin_sq_add_cos_sq (toRadians s.dir)
      rw [key, Real.sqrt_sq hdm]
    · have key : (s.x + (d : ℝ) / 100 * Real.sin (toRadians (s.dir - 90)) - s.x) ^ 2 +
          (s.y + (d : ℝ) / 100 * Real.cos (toRadians (s.dir - 90)) - s.y) ^ 2 =
            ((d : ℝ) / 100) ^ 2 := by
        linear_combination (((d : ℝ) / 100) ^ 2) *
          Real.sin_sq_add_cos_sq (toRadians (s.dir - 90))
      rw [key, Real.sqrt_sq hdm]
    · have key : (s.x + (d : ℝ) / 100 * Real.sin (toRadians (s.dir + 90)) - s.x) ^ 2 +
          (s.y + (d : ℝ) / 100 * Real.cos (toRadians (s.dir + 90)) - s.y) ^ 2 =
            ((d : ℝ) / 100) ^ 2 := by
        linear_combination (((d : ℝ) / 100) ^ 2) *
          Real.sin_sq_add_cos_sq (toRadians (s.dir + 90))
      rw [key, Real.sqrt_sq hdm]
  · rcases hdir with h | h | h | h <;> subst h <;>
      simp [update_position_after_movement]
  · norm_num [update_position_after_movement, initialState, toRadians]
  · norm_num [update_position_after_movement, initialState, toRadians]
  · norm_num [update_position_after_movement, initialState, toRadians]

/-- Witness for C2: `forward 100` from the origin at heading 0 moves the
pose one meter with `z` unchanged. -/
theorem c2_horizontal_move_displacement_witness :
    (Real.sqrt (((update_position_after_movement initialState "forward" 100).x -
          initialState.x) ^ 2 +
        ((update_position_after_movement initialState "forward" 100).y -
          initialState.y) ^ 2) = ((100 : ℤ) : ℝ) / 100 ∧
      (update_position_after_movement initialState "forward" 100).z =
        initialState.z) ∧
    ((update_position_after_movement initialState "forward" 100).x = 0 ∧
      (update_position_after_movement initialState "forward" 100).y = 1 ∧
      (update_position_after_movement initialState "forward" 100).z = 0) :=
  c2_horizontal_move_displacement initialState "forward" 100 (by norm_num)
    (by norm_num) (Or.inl rfl)

/-- C8: from any pose and target, the normalized target headings of
`point_camera_to_center` (bearing `+90°`) and `point_camera_from_center`
(bearing `-90°`) differ by exactly 180° modulo 360 (here: by `±180`,
both headings lying in `[0, 360)`). -/
theorem c8_opposite_target_headings (px py cx cy : ℝ) :
    targetHeadingToCenter px py cx cy - targetHeadingFromCenter px py cx cy = 180 ∨
    targetHeadingFromCenter px py cx cy - targetHeadingToCenter px py cx cy = 180 := by
  unfold targetHeadingToCenter targetHeadingFromCenter
  obtain ⟨h1, h2⟩ := toDegrees_atan2_mem (cy - py) (cx - px)
  set a := toDegrees (atan2 (cy - py) (cx - px)) with ha
  rcases lt_or_le a (-90) with hc1 | hc1
  · left
    rw [fmod32_eq_self (by linarith) (by linarith),
      fmod32_eq_self (by linarith) (by linarith)]
    ring
  · rcases lt_or_le a 90 with hc2 | hc2
    · right
      rw [@fmod32_eq_sub (a + 90 + 360) 360 (by norm_num) (by linarith)
          (by linarith),
        @fmod32_eq_self (a - 90 + 360) 360 (by linarith) (by linarith)]
      ring
    · left
      rw [fmod32_eq_sub (by norm_num) (by linarith) (by linarith),
        fmod32_eq_sub (by norm_num) (by linarith) (by linarith)]
      ring

/-- C3, counterexample to the claim as stated: at position `(0,0)` with
heading `180` and target `(0,-1)` the normalized target heading is `0`
and `point_camera_to_center` computes the signed difference `-180`,
which does not lie in the claimed interval `(-180, 180]`. -/
theorem c3_counterexample :
    rotationToCenter ⟨0, 0, 0, 180⟩ 0 (-1) = -180 ∧
    rotationToCenter ⟨0, 0, 0, 180⟩ 0 (-1) ∉ Set.Ioc (-180 : ℝ) 180 := by
  have hpi := Real.pi_pos
  have h1 : atan2 ((-1 : ℝ) - 0) ((0 : ℝ) - 0) = -(Real.pi / 2) := by
    unfold atan2
    norm_num
  have h2 : toDegrees (-(Real.pi / 2)) = -90 := by
    unfold toDegrees
    field_simp
    try ring
  have h3 : targetHeadingToCenter 0 0 0 (-1) = 0 := by
    unfold targetHeadingToCenter
    rw [h1, h2]
    rw [show (-90 : ℝ) + 90 + 360 = 360 from by norm_num]
    rw [fmod32_eq_sub (by norm_num) (by norm_num) (by norm_num)]
    norm_num
  have hr : rotationToCenter ⟨0, 0, 0, 180⟩ 0 (-1) = -180 := by
    show normalizeRotation (targetHeadingToCenter 0 0 0 (-1) - 180) = -180
    rw [h3]
    unfold normalizeRotation
    norm_num
  refine ⟨hr, ?_⟩
  rw [hr]
  simp only [Set.mem_Ioc, not_and_or, not_lt]
  left
  norm_num

/-- C3 as amended: for a heading in `[0, 360)`, `point_camera_to_center`
computes the signed difference between the normalized target heading
(atan2 bearing with `+90°` offset, normalized to `[0, 360)`) and the
current heading, normalized into the closed interval `[-180, 180]`
(the endpoint `-180` occurs exactly when the target heading is
diametrically opposite, and is still a minimal rotation); the computed
value is congruent to the raw difference mod 360; a magnitude under 1°
issues no rotation command, a positive difference issues `rotate_cw`,
and a negative one issues `rotate_ccw`. -/
theorem c3_point_camera_to_center_rotation (s : DroneState) (cx cy : ℝ)
    (hd : 0 ≤ s.dir) (hd' : s.dir < 360) :
    (-180 ≤ rotationToCenter s cx cy ∧ rotationToCenter s cx cy ≤ 180) ∧
    (∃ k : ℤ, rotationToCenter s cx cy =
      targetHeadingToCenter s.x s.y cx cy - s.dir + 360 * (k : ℝ)) ∧
    (|rotationToCenter s cx cy| < 1 →
      point_camera_to_center s "ok" cx cy = (none, s, [])) ∧
    (1 ≤ rotationToCenter s cx cy →
      point_camera_to_center s "ok" cx cy =
        rotate_cw s "ok" (round (rotationToCenter s cx cy))) ∧
    (rotationToCenter s cx cy ≤ -1 →
      point_camera_to_center s "ok" cx cy =
        rotate_ccw s "ok" (round (-rotationToCenter s cx cy))) := by
  obtain ⟨hb1, hb2⟩ := rotationToCenter_mem s cx cy ⟨hd, hd'⟩
  refine ⟨⟨hb1, hb2⟩, ?_, ?_, ?_, ?_⟩
  · unfold rotationToCenter normalizeRotation
    split_ifs with ha hb
    · exact ⟨-1, by push_cast; ring⟩
    · exact ⟨1, by push_cast; ring⟩
    · exact ⟨0, by push_cast; ring⟩
  · intro h
    unfold point_camera_to_center
    rw [if_pos h]
  · intro h
    have h1 : ¬(|rotationToCenter s cx cy| < 1) :=
      not_lt.mpr (h.trans (le_abs_self _))
    have h2 : 0 < rotationToCenter s cx cy := lt_of_lt_of_le one_pos h
    unfold point_camera_to_center
    rw [if_neg h1, if_pos h2]
  · intro h
    have hn : rotationToCenter s cx cy ≤ 0 := h.trans (by norm_num)
    have h1 : ¬(|rotationToCenter s cx cy| < 1) := by
      rw [abs_of_nonpos hn]
      linarith
    have h2 : ¬(0 < rotationToCenter s cx cy) := not_lt.mpr hn
    unfold point_camera_to_center
    rw [if_neg h1, if_neg h2]

/-- Witness for C3 at the initial pose aiming at `(0, 1)`: the
computed rotation obeys the amended bounds and dispatch rules. -/
theorem c3_point_camera_to_center_rotation_witness :
    (-180 ≤ rotationToCenter initialState 0 1 ∧
      rotationToCenter initialState 0 1 ≤ 180) ∧
    (∃ k : ℤ, rotationToCenter initialState 0 1 =
      targetHeadingToCenter initialState.x initialState.y 0 1 -
        initialState.dir + 360 * (k : ℝ)) ∧
    (|rotationToCenter initialState 0 1| < 1 →
      point_camera_to_center initialState "ok" 0 1 = (none, initialState, [])) ∧
    (1 ≤ rotationToCenter initialState 0 1 →
      point_camera_to_center initialState "ok" 0 1 =
        rotate_cw initialState "ok" (round (rotationToCenter initialState 0 1))) ∧
    (rotationToCenter initialState 0 1 ≤ -1 →
      point_camera_to_center initialState "ok" 0 1 =
        rotate_ccw initialState "ok"
          (round (-rotationToCenter initialState 0 1))) :=
  c3_point_camera_to_center_rotation initialState 0 1
    (by norm_num [initialState]) (by norm_num [initialState])

/-- Any single public-interface call preserves a heading in `[0, 360)`. -/
theorem stepOp_dir_mem {s : DroneState}
    (hd : s.dir ∈ Set.Ico (0 : ℝ) 360) (op : DOp) :
    (stepOp s op).dir ∈ Set.Ico (0 : ℝ) 360 := by
  cases op with
  | opRotCw d => exact rotate_cw_dir_mem "ok" d hd
  | opRotCcw d => exact rotate_ccw_dir_mem "ok" d hd
  | opPointTo cx cy =>
    show ((point_camera_to_center s "ok" cx cy).2.1).dir ∈ Set.Ico (0 : ℝ) 360
    unfold point_camera_to_center
    split_ifs with ha hb
    · exact hd
    · exact rotate_cw_dir_mem "ok" _ hd
    · exact rotate_ccw_dir_mem "ok" _ hd
  | opPointFrom cx cy =>
    show ((point_camera_from_center s "ok" cx cy).2.1).dir ∈ Set.Ico (0 : ℝ) 360
    unfold point_camera_from_center
    split_ifs with ha hb
    · exact hd
    · exact rotate_cw_dir_mem "ok" _ hd
    · exact rotate_ccw_dir_mem "ok" _ hd
  | opMove dir d =>
    show ((moveDir s "ok" dir d).2.1).dir ∈ Set.Ico (0 : ℝ) 360
    unfold moveDir
    split_ifs with ha hb
    · exact hd
    · rw [update_position_dir_eq]
      exact hd
    · exact hd
  | opSetPos nx ny nz => exact hd
  | opUpdatePos dir d =>
    show ((update_position_after_movement s dir d)).dir ∈ Set.Ico (0 : ℝ) 360
    rw [update_position_dir_eq]
    exact hd

/-- C7: the heading is an invariant of the whole public interface:
starting from the initial heading 0, any sequence of successful
`rotate_cw`, `rotate_ccw`, `point_camera_to_center`,
`point_camera_from_center`, movement, `set_position` and
`update_position_after_movement` calls leaves the heading in
`[0, 360)`. -/
theorem c7_heading_invariant (ops : List DOp) :
    ((ops.foldl stepOp initialState).dir) ∈ Set.Ico (0 : ℝ) 360 := by
  have hgen : ∀ (l : List DOp) (s : DroneState),
      s.dir ∈ Set.Ico (0 : ℝ) 360 →
      ((l.foldl stepOp s).dir) ∈ Set.Ico (0 : ℝ) 360 := by
    intro l
    induction l with
    | nil => exact fun s hs => hs
    | cons op rest ih => exact fun s hs => ih _ (stepOp_dir_mem hs op)
  exact hgen ops initialState (by norm_num [initialState, Set.mem_Ico])

/-- C9: an out-of-range argument makes each movement or rotation wrapper
return `InvalidInput` with no command sent and the pose exactly
unchanged; and whenever the (classified) reply to a sent movement or
rotation command is not `"ok"`, the wrapper fails with that reply
preserved and the pose is not updated. -/
theorem c9_validation_and_atomicity (s : DroneState) (raw direction : String)
    (d r : ℤ) :
    ((d ≤ 0 ∨ 500 < d) →
      moveDir s raw direction d = (some TError.invalidInput, s, [])) ∧
    ((r ≤ 0 ∨ 360 < r) →
      rotate_cw s raw r = (some TError.invalidInput, s, []) ∧
      rotate_ccw s raw r = (some TError.invalidInput, s, [])) ∧
    (¬(d ≤ 0 ∨ 500 < d) →
      classifyReply (direction ++ " " ++ toString d) raw ≠ "ok" →
      moveDir s raw direction d =
        (some (TError.commandFailed
            (classifyReply (direction ++ " " ++ toString d) raw)), s,
          [direction ++ " " ++ toString d])) ∧
    (¬(r ≤ 0 ∨ 360 < r) →
      classifyReply ("cw " ++ toString r) raw ≠ "ok" →
      rotate_cw s raw r =
        (some (TError.commandFailed (classifyReply ("cw " ++ toString r) raw)),
          s, ["cw " ++ toString r])) ∧
    (¬(r ≤ 0 ∨ 360 < r) →
      classifyReply ("ccw " ++ toString r) raw ≠ "ok" →
      rotate_ccw s raw r =
        (some (TError.commandFailed (classifyReply ("ccw " ++ toString r) raw)),
          s, ["ccw " ++ toString r])) := by
  refine ⟨fun h => ?_, fun h => ⟨?_, ?_⟩, fun h hr2 => ?_, fun h hr2 => ?_,
    fun h hr2 => ?_⟩
  · unfold moveDir
    rw [if_pos h]
  · unfold rotate_cw
    rw [if_pos h]
  · unfold rotate_ccw
    rw [if_pos h]
  · unfold moveDir
    rw [if_neg h, if_neg hr2]
  · unfold rotate_cw
    rw [if_neg h, if_neg hr2]
  · unfold rotate_ccw
    rw [if_neg h, if_neg hr2]

/-- Witness for C9: `forward 600` is rejected as `InvalidInput` with no
command sent and the state unchanged. -/
theorem c9_validation_and_atomicity_witness :
    moveDir initialState "ok" "forward" 600 =
      (some TError.invalidInput, initialState, []) :=
  (c9_validation_and_atomicity initialState "ok" "forward" 600 1).1
    (Or.inr (by norm_num))

/-- With a validated argument, `rotate_cw` never reports
`InvalidInput`. -/
theorem rotate_cw_no_invalidInput (s : DroneState) (raw : String) (d : ℤ)
    (h : ¬(d ≤ 0 ∨ 360 < d)) :
    (rotate_cw s raw d).1 ≠ some TError.invalidInput := by
  unfold rotate_cw
  rw [if_neg h]
  split_ifs with h2
  · simp
  · simp

/-- With a validated argument, `rotate_ccw` never reports
`InvalidInput`. -/
theorem rotate_ccw_no_invalidInput (s : DroneState) (raw : String) (d : ℤ)
    (h : ¬(d ≤ 0 ∨ 360 < d)) :
    (rotate_ccw s raw d).1 ≠ some TError.invalidInput := by
  unfold rotate_ccw
  rw [if_neg h]
  split_ifs with h2
  · simp
  · simp

/-- C10: under the heading invariant, whenever `point_camera_to_center`
or `point_camera_from_center` issues a rotation, the rounded magnitude
lies in `[1, 180]`, so the `(0, 360]` validation inside
`rotate_cw`/`rotate_ccw` never fails: the camera operations can never
return an `InvalidInput` error. -/
theorem c10_camera_rotation_validated (s : DroneState) (raw : String)
    (cx cy : ℝ) (hd : s.dir ∈ Set.Ico (0 : ℝ) 360) :
    (1 ≤ rotationToCenter s cx cy →
      round (rotationToCenter s cx cy) ∈ Set.Icc (1 : ℤ) 180) ∧
    (rotationToCenter s cx cy ≤ -1 →
      round (-rotationToCenter s cx cy) ∈ Set.Icc (1 : ℤ) 180) ∧
    (1 ≤ rotationFromCenter s cx cy →
      round (rotationFromCenter s cx cy) ∈ Set.Icc (1 : ℤ) 180) ∧
    (rotationFromCenter s cx cy ≤ -1 →
      round (-rotationFromCenter s cx cy) ∈ Set.Icc (1 : ℤ) 180) ∧
    (point_camera_to_center s raw cx cy).1 ≠ some TError.invalidInput ∧
    (point_camera_from_center s raw cx cy).1 ≠ some TError.invalidInput := by
  obtain ⟨ht1, ht2⟩ := rotationToCenter_mem s cx cy hd
  obtain ⟨hf1, hf2⟩ := rotationFromCenter_mem s cx cy hd
  refine ⟨fun h => round_mem_Icc h (by linarith),
    fun h => round_mem_Icc (by linarith) (by linarith),
    fun h => round_mem_Icc h (by linarith),
    fun h => round_mem_Icc (by linarith) (by linarith), ?_, ?_⟩
  · unfold point_camera_to_center
    split_ifs with ha hb
    · simp
    · have hge : 1 ≤ rotationToCenter s cx cy := by
        have habs := not_lt.mp ha
        rwa [abs_of_pos hb] at habs
      obtain ⟨hr1, hr2⟩ := round_mem_Icc hge (by linarith)
      exact rotate_cw_no_invalidInput s raw _ (by omega)
    · have hn : rotationToCenter s cx cy ≤ 0 := not_lt.mp hb
      have hge : 1 ≤ -rotationToCenter s cx cy := by
        have habs := not_lt.mp ha
        rwa [abs_of_nonpos hn] at habs
      obtain ⟨hr1, hr2⟩ := round_mem_Icc hge (by linarith)
      exact rotate_ccw_no_invalidInput s raw _ (by omega)
  · unfold point_camera_from_center
    split_ifs with ha hb
    · simp
    · have hge : 1 ≤ rotationFromCenter s cx cy := by
        have habs := not_lt.mp ha
        rwa [abs_of_pos hb] at habs
      obtain ⟨hr1, hr2⟩ := round_mem_Icc hge (by linarith)
      exact rotate_cw_no_invalidInput s raw _ (by omega)
    · have hn : rotationFromCenter s cx cy ≤ 0 := not_lt.mp hb
      have hge : 1 ≤ -rotationFromCenter s cx cy := by
        have habs := not_lt.mp ha
        rwa [abs_of_nonpos hn] at habs
      obtain ⟨hr1, hr2⟩ := round_mem_Icc hge (by linarith)
      exact rotate_ccw_no_invalidInput s raw _ (by omega)

/-- Witness for C10 at the initial pose aiming at `(0, 1)`. -/
theorem c10_camera_rotation_validated_witness :
    (point_camera_to_center initialState "ok" 0 1).1 ≠
      some TError.invalidInput ∧
    (point_camera_from_center initialState "ok" 0 1).1 ≠
      some TError.invalidInput := by
  have h := c10_camera_rotation_validated initialState "ok" 0 1
    (by norm_num [initialState, Set.mem_Ico])
  exact ⟨h.2.2.2.2.1, h.2.2.2.2.2⟩

end Tello
